import Mathlib

/-!
Shallow embedding of the foundry test-orchestration core:
`forge/src/multi_runner.rs` and `cli/src/cmd/forge/test.rs`.

Regexes (`regex::Regex`) and compiled globs (`globset::Glob`) are embedded
as their matching predicates `String → Bool`; a `Some` field corresponds to
a set pattern.  Rust `BTreeMap`s are embedded as association lists together
with explicit key-insertion/deduplication functions that reproduce the
map semantics (`insert` replaces the value at an existing key; collecting
an iterator keeps the last value per key).
-/

namespace Foundry

/-- Raw EVM bytes (`ethers::types::Bytes`). -/
abbrev Bytes := List Nat

/-- An EVM address (`ethers::types::Address`), abstracted to a number. -/
abbrev Address := Nat

/-- Embedding of Rust `str::starts_with`, on the character sequence. -/
def strStartsWith (s p : String) : Bool :=
  p.data.isPrefixOf s.data

/-- Embedding of Rust `str::ends_with`, on the character sequence. -/
def strEndsWith (s p : String) : Bool :=
  p.data.isSuffixOf s.data

/-- An ABI constructor (`ethers::abi::Constructor`): we keep only its input
parameters, as the code only inspects `c.inputs.is_empty()`. Inputs are
abstracted to their type strings. -/
structure Constructor where
  inputs : List String
deriving DecidableEq, Inhabited

/-- An ABI function (`ethers::abi::Function`): name and input parameter
types (the code inspects `func.name`, `func.signature()` and the arity). -/
structure AbiFunction where
  name : String
  inputs : List String
deriving DecidableEq, Inhabited

/-- The function's canonical signature `name(type1,type2,...)`, as produced
by `ethers::abi::Function::signature` (ignoring outputs). -/
def AbiFunction.signature (f : AbiFunction) : String :=
  f.name ++ "(" ++ String.intercalate "," f.inputs ++ ")"

/-- A contract ABI (`ethers::abi::Abi`): optional constructor and the list
of functions, in the order `abi.functions()` yields them. -/
structure Abi where
  constructor : Option Constructor
  functions : List AbiFunction
deriving DecidableEq, Inhabited

/-- The identifier of a compiled artifact
(`ethers::solc::ArtifactId`): source path, contract name, compiler
version. -/
structure ArtifactId where
  source : String
  name : String
  version : String
deriving DecidableEq, Inhabited

/-- `ArtifactId::identifier`, the suite key `"<file>:<name>"`. -/
def ArtifactId.identifier (id : ArtifactId) : String :=
  id.source ++ ":" ++ id.name

/-- The CLI `Filter` struct (cli/src/cmd/forge/test.rs lines 36-71).
Each optional regex / glob is embedded as its matching predicate. -/
structure Filter where
  pattern : Option (String → Bool)
  test_pattern : Option (String → Bool)
  test_pattern_inverse : Option (String → Bool)
  contract_pattern : Option (String → Bool)
  contract_pattern_inverse : Option (String → Bool)
  path_pattern : Option (String → Bool)
  path_pattern_inverse : Option (String → Bool)

/-- Modelled from the spec: `FoundryPathExt::is_sol_test` (the helper lives
in the cli crate's utils, outside the provided sources).  Per §4.1 the path
is accepted iff it has the well-known test-source suffix `.t.<source-ext>`,
i.e. `.t.sol`. -/
def is_sol_test (file : String) : Bool :=
  strEndsWith file ".t.sol"

/-- `impl FileFilter for Filter`, `Filter::is_match`
(cli/src/cmd/forge/test.rs lines 78-88).  Paths are embedded as strings, so
the `to_str` conversion always succeeds. -/
def Filter.is_match (f : Filter) (file : String) : Bool :=
  match f.path_pattern with
  | some glob => glob file
  | none =>
    match f.path_pattern_inverse with
    | some glob => !glob file
    | none => is_sol_test file

/-- `Filter::matches_test` (cli/src/cmd/forge/test.rs lines 92-106):
starts from `ok = true` and conjoins the verdict of each set pattern among
the deprecated `pattern`, `test_pattern` and (negated)
`test_pattern_inverse`. -/
def Filter.matches_test (f : Filter) (test_name : String) : Bool :=
  let ok := true
  let ok := match f.pattern with
    | some re => ok && re test_name
    | none => ok
  let ok := match f.test_pattern with
    | some re => ok && re test_name
    | none => ok
  let ok := match f.test_pattern_inverse with
    | some re => ok && !re test_name
    | none => ok
  ok

/-- `Filter::matches_contract` (cli/src/cmd/forge/test.rs lines 108-118). -/
def Filter.matches_contract (f : Filter) (contract_name : String) : Bool :=
  let ok := true
  let ok := match f.contract_pattern with
    | some re => ok && re contract_name
    | none => ok
  let ok := match f.contract_pattern_inverse with
    | some re => ok && !re contract_name
    | none => ok
  ok

/-- `Filter::matches_path` (cli/src/cmd/forge/test.rs lines 120-130). -/
def Filter.matches_path (f : Filter) (path : String) : Bool :=
  let ok := true
  let ok := match f.path_pattern with
    | some glob => ok && glob path
    | none => ok
  let ok := match f.path_pattern_inverse with
    | some glob => ok && !glob path
    | none => ok
  ok

/-- A Filter with every pattern field unset. -/
def Filter.empty : Filter :=
  ⟨none, none, none, none, none, none, none⟩

/-- Modelled from the spec: `TraceKind` (§3) from the forge crate (the
type's definition is outside the provided sources). -/
inductive TraceKind where
  | Deployment
  | Setup
  | Execution
deriving DecidableEq, Inhabited

/-- Modelled from the spec: a `FuzzCase` (§3) carries `{calldata, gas}`. -/
structure FuzzCase where
  calldata : Bytes
  gas : Nat
deriving DecidableEq, Inhabited

/-- Modelled from the spec: `TestKind` (§3), a tagged variant
`Standard { gas }` or `Fuzz { cases, median_gas, mean_gas }`. -/
inductive TestKind where
  | Standard (gas : Nat)
  | Fuzz (cases : List FuzzCase) (median_gas : Nat) (mean_gas : Nat)
deriving DecidableEq, Inhabited

/-- Modelled from the spec: a fuzz counterexample (§3),
`{calldata, decoded_args}`. -/
structure CounterExample where
  calldata : Bytes
  decoded_args : List String
deriving DecidableEq, Inhabited

/-- Modelled from the spec: `TestResult` (§3) from the forge crate (defined
outside the provided sources).  Logs are kept as raw strings and traces as
`(TraceKind, handle)` pairs, since their internals are never inspected by
the verified claims. -/
structure TestResult where
  success : Bool
  reason : Option String
  counterexample : Option CounterExample
  logs : List String
  traces : List (TraceKind × Nat)
  labeled_addresses : List (Address × String)
  kind : TestKind
deriving DecidableEq, Inhabited

/-- A synthetic failing result with the given reason (used for the spec's
`constructor()` and `setUp()` synthetic tests, §4.4 and §7). -/
def TestResult.synthetic_failure (reason : String) : TestResult :=
  { success := false
    reason := some reason
    counterexample := none
    logs := []
    traces := []
    labeled_addresses := []
    kind := TestKind.Standard 0 }

/-- Modelled from the spec: `SuiteResult` (§3) from the forge crate
(defined outside the provided sources): a duration and the mapping
signature → TestResult, kept as an ordered list.  The wall-clock duration
is not observable in the embedding and is carried as a number. -/
structure SuiteResult where
  duration : Nat
  test_results : List (String × TestResult)
deriving DecidableEq, Inhabited

/-- The abstract `TestFilter` trait from the forge crate, as consumed by
`MultiContractRunner` (multi_runner.rs): three predicates over names. -/
structure TestFilter where
  matches_test : String → Bool
  matches_contract : String → Bool
  matches_path : String → Bool

/-- Oracle for the EVM-dependent outcomes of one suite: deployment,
`setUp`, and the result of each dispatched test call.  This abstracts the
`Executor` collaborator (spec §6), which is out of scope. -/
structure SuiteOracle where
  deploy_ok : Bool
  deploy_reason : String
  setup_revert : Option String
  call_result : AbiFunction → TestResult

/-- Modelled from the spec: `ContractRunner::run_tests` (§4.4; the
ContractRunner lives in the forge crate outside the provided sources).
Deployment failure yields a single synthetic failing test `constructor()`
(§7 DeployError); a reverting declared `setUp()` yields a single synthetic
failing test `setUp()` with reason `"Setup failed: " ++ reason` and no test
function is attempted; otherwise every ABI function whose name starts with
`test` and whose signature passes `matches_test` is dispatched in order,
fuzz tests (non-zero arity) only when `include_fuzz_tests` is true.
Suite-level failures are captured as SuiteResults, never as errors
(§4.6), so the modelled function is total. -/
def ContractRunner.run_tests (oracle : SuiteOracle) (contract : Abi)
    (filter : TestFilter) (include_fuzz_tests : Bool) : SuiteResult :=
  if !oracle.deploy_ok then
    ⟨0, [("constructor()", TestResult.synthetic_failure oracle.deploy_reason)]⟩
  else if contract.functions.any (fun func => func.signature == "setUp()") then
    match oracle.setup_revert with
    | some reason =>
      ⟨0, [("setUp()", TestResult.synthetic_failure ("Setup failed: " ++ reason))]⟩
    | none =>
      ⟨0, (contract.functions.filter (fun func =>
          strStartsWith func.name "test" && filter.matches_test func.signature &&
            (func.inputs.isEmpty || include_fuzz_tests))).map
        (fun func => (func.signature, oracle.call_result func))⟩
  else
    ⟨0, (contract.functions.filter (fun func =>
        strStartsWith func.name "test" && filter.matches_test func.signature &&
          (func.inputs.isEmpty || include_fuzz_tests))).map
      (fun func => (func.signature, oracle.call_result func))⟩

/-- `BTreeMap::insert`: replace the value at an existing key, otherwise
append the new binding. -/
def assocInsert {α β : Type} [DecidableEq α] (m : List (α × β)) (k : α) (v : β) :
    List (α × β) :=
  if m.any (fun p => decide (p.1 = k)) then
    m.map (fun p => if p.1 = k then (k, v) else p)
  else m ++ [(k, v)]

/-- Collecting an iterator of key-value pairs into a `BTreeMap`: the last
binding of each key wins.  Keys are kept in order of their last
occurrence; the claims only consult key membership and the key-deduplicated
contents, never the sortedness of the Rust map. -/
def collectResults : List (String × SuiteResult) → List (String × SuiteResult)
  | [] => []
  | p :: rest =>
    if rest.any (fun q => q.1 == p.1) then collectResults rest
    else p :: collectResults rest

/-- A compiled contract after linking, as seen by the post-link callback
(`CompactContractBytecode` plus the extracted pieces used in
multi_runner.rs lines 79-100): the ABI (whose presence the code asserts
with `expect`), the linked creation bytecode when `object.into_bytes()`
succeeds, and the deployed bytecode bytes when present. -/
structure LinkedContract where
  abi : Abi
  bytecode : Option Bytes
  deployed_bytecode : Option Bytes
deriving DecidableEq

/-- The post-link callback passed to `foundry_utils::link` by
`MultiContractRunnerBuilder::build` (multi_runner.rs lines 70-102): if the
creation bytecode is linked, insert the contract into the deployable
(test-suite) map when its ABI has an argumentless (or no) constructor and
some function whose name starts with `test`; independently record the
deployed bytecode in the known-contracts map. -/
def post_link (id : ArtifactId) (contract : LinkedContract)
    (dependencies : List Bytes)
    (deployable_contracts : List (ArtifactId × (Abi × Bytes × List Bytes)))
    (known_contracts : List (ArtifactId × (Abi × Bytes))) :
    List (ArtifactId × (Abi × Bytes × List Bytes)) ×
      List (ArtifactId × (Abi × Bytes)) :=
  match contract.bytecode with
  | none => (deployable_contracts, known_contracts)
  | some bytecode =>
    let abi := contract.abi
    let deployable_contracts :=
      if (match abi.constructor with
          | some c => c.inputs.isEmpty
          | none => true) &&
          abi.functions.any (fun func => strStartsWith func.name "test") then
        assocInsert deployable_contracts id (abi, bytecode, dependencies)
      else deployable_contracts
    let known_contracts :=
      match contract.deployed_bytecode with
      | some bytes => assocInsert known_contracts id (abi, bytes)
      | none => known_contracts
    (deployable_contracts, known_contracts)

/-- The EVM options (`foundry_evm::executor::opts::EvmOpts`), restricted
to the fields multi_runner.rs reads. -/
structure EvmOpts where
  ffi : Bool
  verbosity : Nat
  gas_limit : Nat
  initial_balance : Nat
  sender : Address
deriving DecidableEq, Inhabited

/-- The EVM hardfork (`revm::SpecId`), abstracted to the variants named in
the provided sources. -/
inductive SpecId where
  | LONDON
  | OTHER (n : Nat)
deriving DecidableEq, Inhabited

/-- A fork descriptor (`foundry_evm::executor::Fork`), abstracted to its
endpoint and pin block. -/
structure Fork where
  url : String
  pin_block : Option Nat
deriving DecidableEq, Inhabited

/-- The proptest `TestRunner`, abstracted to its configuration. -/
structure TestRunner where
  cases : Nat
  max_local_rejects : Nat
  max_global_rejects : Nat
deriving DecidableEq, Inhabited

/-- The shared database (`Backend::new(fork, env)`), abstracted to its
fork-dependence: the claims only observe which fork configuration the
backend was built from. -/
structure Backend where
  fork : Option Fork
deriving DecidableEq, Inhabited

/-- `Backend::new`. -/
def Backend.new (fork : Option Fork) : Backend :=
  ⟨fork⟩

/-- The `MultiContractRunner` struct (multi_runner.rs lines 152-172), with
`BTreeMap`s embedded as association lists. -/
structure MultiContractRunner where
  contracts : List (ArtifactId × (Abi × Bytes × List Bytes))
  known_contracts : List (ArtifactId × (Abi × Bytes))
  evm_opts : EvmOpts
  evm_spec : SpecId
  errors : Option Abi
  fuzzer : Option TestRunner
  sender : Option Address
  source_paths : List (String × String)
  fork : Option Fork

/-- `MultiContractRunner::count_filtered_tests` (multi_runner.rs lines
175-186): over the contracts passing the path and contract filters, count
every ABI function whose signature passes `matches_test`. -/
def MultiContractRunner.count_filtered_tests (r : MultiContractRunner)
    (filter : TestFilter) : Nat :=
  ((r.contracts.filter (fun p =>
      filter.matches_path p.1.source && filter.matches_contract p.1.name)).map
    (fun p =>
      (p.2.1.functions.filter (fun func =>
        filter.matches_test func.signature)).length)).sum

/-- The outputs of one `MultiContractRunner::test` call: the runner state
after the call, the shared backend that was built, the pairs sent on the
stream channel, and the returned results map. -/
structure TestOutput where
  runner : MultiContractRunner
  db : Backend
  sent : List (String × SuiteResult)
  results : List (String × SuiteResult)

/-- The suites admitted by the two filter stages of
`MultiContractRunner::test` (multi_runner.rs lines 203-207): those passing
the path and contract filters and having some function whose name passes
`matches_test`. -/
def MultiContractRunner.admittedContracts (r : MultiContractRunner)
    (filter : TestFilter) : List (ArtifactId × (Abi × Bytes × List Bytes)) :=
  (r.contracts.filter (fun p =>
    filter.matches_path p.1.source && filter.matches_contract p.1.name)).filter
    (fun p => p.2.1.functions.any (fun func => filter.matches_test func.name))

/-- The `(identifier, SuiteResult)` pairs produced by the admitted suites
(multi_runner.rs lines 208-229), with per-suite EVM outcomes supplied by
`oracle` keyed by suite identifier. -/
def MultiContractRunner.ranSuites (r : MultiContractRunner)
    (filter : TestFilter) (oracle : String → SuiteOracle)
    (include_fuzz_tests : Bool) : List (String × SuiteResult) :=
  (r.admittedContracts filter).map (fun p =>
    (p.1.identifier,
      ContractRunner.run_tests (oracle p.1.identifier) p.2.1 filter
        include_fuzz_tests))

/-- The pairs surviving the `!results.is_empty()` filter
(multi_runner.rs line 231). -/
def MultiContractRunner.nonEmptySuites (r : MultiContractRunner)
    (filter : TestFilter) (oracle : String → SuiteOracle)
    (include_fuzz_tests : Bool) : List (String × SuiteResult) :=
  (r.ranSuites filter oracle include_fuzz_tests).filter
    (fun p => !p.2.test_results.isEmpty)

/-- `MultiContractRunner::test` (multi_runner.rs lines 188-239): the
shared backend is built from `self.fork.take()` (leaving `None` behind);
contracts passing the path and contract filters and having some function
whose name passes `matches_test` are run; suites with an empty result are
discarded; each surviving `(identifier, SuiteResult)` pair is sent on the
stream channel when one was supplied (`stream_result`), and all are
collected into a map keyed by identifier.  The per-suite EVM outcomes are
supplied by `oracle`, keyed by suite identifier; the pipeline's
`filter_map(Result::ok)` is omitted because the modelled
`ContractRunner.run_tests` is total (spec §4.6). -/
def MultiContractRunner.test (r : MultiContractRunner) (filter : TestFilter)
    (oracle : String → SuiteOracle) (stream_result : Bool)
    (include_fuzz_tests : Bool) : TestOutput :=
  { runner := { r with fork := none }
    db := Backend.new r.fork
    sent :=
      if stream_result then r.nonEmptySuites filter oracle include_fuzz_tests
      else []
    results := collectResults (r.nonEmptySuites filter oracle include_fuzz_tests) }

/-- The CLI `TestOutcome` struct (cli/src/cmd/forge/test.rs lines
237-242). -/
structure TestOutcome where
  allow_failure : Bool
  results : List (String × SuiteResult)
deriving DecidableEq

/-- `TestOutcome::tests` (test.rs lines 259-262): flatten every suite's
test results. -/
def TestOutcome.tests (o : TestOutcome) : List (String × TestResult) :=
  (o.results.map (fun p => p.2.test_results)).flatten

/-- `TestOutcome::successes` (test.rs lines 249-252). -/
def TestOutcome.successes (o : TestOutcome) : List (String × TestResult) :=
  o.tests.filter (fun p => p.2.success)

/-- `TestOutcome::failures` (test.rs lines 254-257). -/
def TestOutcome.failures (o : TestOutcome) : List (String × TestResult) :=
  o.tests.filter (fun p => !p.2.success)

/-- What a CLI entry point does after the run: return normally or
terminate the process with an exit code (`std::process::exit`). -/
inductive ExitOutcome where
  | ok
  | exited (code : Nat)
deriving DecidableEq

/-- `TestOutcome::ensure_ok` (test.rs lines 275-296): when failures are
disallowed and at least one test failed, print a summary of the failures
and terminate the process with exit code 1; otherwise return success.
The printing is not observable in the embedding; the decision is. -/
def TestOutcome.ensure_ok (o : TestOutcome) : ExitOutcome :=
  if !o.allow_failure then
    if o.failures.length > 0 then ExitOutcome.exited 1 else ExitOutcome.ok
  else ExitOutcome.ok

/-- The per-trace display decision inside the CLI result printer
(cli/src/cmd/forge/test.rs lines 515-527): `should_include`, computed from
the trace kind, the configured verbosity (a `u8`, embedded as a number)
and whether the test succeeded. -/
def should_include (kind : TraceKind) (verbosity : Nat) (success : Bool) : Bool :=
  match kind with
  | TraceKind.Setup => (verbosity ≥ 5) || (verbosity == 4 && !success)
  | TraceKind.Execution => verbosity > 3 || (verbosity == 3 && !success)
  | _ => false

/-- The keys of an association list. -/
def keysOf {α β : Type} (m : List (α × β)) : List α :=
  m.map (fun p => p.1)

/-- The verdict of an optional positive pattern: absent patterns default
to accept (spec §4.1). -/
def optMatches (re : Option (String → Bool)) (s : String) : Bool :=
  match re with
  | some re => re s
  | none => true

/-- The verdict of an optional negative pattern: accept iff it does not
match; absent patterns default to accept (spec §4.1). -/
def optNotMatches (re : Option (String → Bool)) (s : String) : Bool :=
  match re with
  | some re => !re s
  | none => true

/-- Modelled from the spec: the `is_source_file` rule as §4.1 states it:
if a positive path-glob is set, accept iff it matches; else if a negative
path-glob is set, accept iff it does NOT match; else accept iff the path
has the test-source suffix `.t.sol`. -/
def is_source_file_spec (f : Filter) (file : String) : Bool :=
  match f.path_pattern with
  | some glob => glob file
  | none =>
    match f.path_pattern_inverse with
    | some glob => !glob file
    | none => strEndsWith file ".t.sol"

/-- The sum of the per-suite test-result counts over a results map. -/
def suiteSum (l : List (String × SuiteResult)) : Nat :=
  (l.map (fun p => p.2.test_results.length)).sum

/-- A test filter that accepts every test name, contract name and path. -/
def tfAll : TestFilter :=
  ⟨fun _ => true, fun _ => true, fun _ => true⟩

/-- A passing standard test result. -/
def passResult : TestResult :=
  { success := true
    reason := none
    counterexample := none
    logs := []
    traces := []
    labeled_addresses := []
    kind := TestKind.Standard 0 }

/-- An oracle under which every suite deploys, sets up and passes. -/
def oracleOk : String → SuiteOracle :=
  fun _ => ⟨true, "", none, fun _ => passResult⟩

/-- A runner over the given deployable contracts, with every other field at
a neutral value. -/
def mkRunner (contracts : List (ArtifactId × (Abi × Bytes × List Bytes))) :
    MultiContractRunner :=
  { contracts := contracts
    known_contracts := []
    evm_opts := ⟨false, 0, 0, 0, 0⟩
    evm_spec := SpecId.LONDON
    errors := none
    fuzzer := none
    sender := none
    source_paths := []
    fork := none }

/-- An ABI with the single test function `testA()`. -/
def abiTestA : Abi :=
  ⟨none, [⟨"testA", []⟩]⟩

/-- An ABI with the single test function `testB()`. -/
def abiTestB : Abi :=
  ⟨none, [⟨"testB", []⟩]⟩

/-- An ABI declaring `setUp()` and the test function `testA()`. -/
def abiSetupTestA : Abi :=
  ⟨none, [⟨"setUp", []⟩, ⟨"testA", []⟩]⟩

/-- Artifact `a.sol:C` at compiler version 1. -/
def aidV1 : ArtifactId :=
  ⟨"a.sol", "C", "1"⟩

/-- Artifact `a.sol:C` at compiler version 2: a distinct artifact with the
same suite identifier. -/
def aidV2 : ArtifactId :=
  ⟨"a.sol", "C", "2"⟩

/-- A runner holding one suite whose ABI declares `setUp()` and
`testA()`. -/
def runnerSetupTestA : MultiContractRunner :=
  mkRunner [(aidV1, (abiSetupTestA, [0], []))]

/-- A runner holding one suite with the single test `testA()`. -/
def runnerTestA : MultiContractRunner :=
  mkRunner [(aidV1, (abiTestA, [0], []))]

/-- A runner holding two distinct artifacts (different compiler versions)
that share the suite identifier `a.sol:C` but differ in their ABI. -/
def runnerDupIdent : MultiContractRunner :=
  mkRunner [(aidV1, (abiTestA, [0], [])), (aidV2, (abiTestB, [0], []))]

/-- A linked contract with ABI `abiTestA` and non-empty creation
bytecode. -/
def lcTestA : LinkedContract :=
  ⟨abiTestA, some [0], none⟩

/-- A concrete test outcome with one passing and one failing test. -/
def outcomePassFail : TestOutcome :=
  ⟨false, [("a.sol:C", ⟨0, [("testA()", passResult),
    ("testB()", TestResult.synthetic_failure "Revert")]⟩)]⟩


/-- C8: when no pattern field of the Filter is set, `matches_test`,
`matches_contract` and `matches_path` each return true for every input
string: a Filter with all regexes and globs unset accepts every test name,
contract name and path. -/
theorem claim_C8_unset_filter_accepts_everything (f : Filter)
    (name contract path : String)
    (hp : f.pattern = none) (ht : f.test_pattern = none)
    (hti : f.test_pattern_inverse = none)
    (hc : f.contract_pattern = none) (hci : f.contract_pattern_inverse = none)
    (hpp : f.path_pattern = none) (hppi : f.path_pattern_inverse = none) :
    f.matches_test name = true ∧ f.matches_contract contract = true ∧
      f.matches_path path = true := by
  obtain ⟨p, tp, tpi, cp, cpi, pp, ppi⟩ := f
  simp only [Filter.matches_test, Filter.matches_contract, Filter.matches_path]
  simp_all

/-- Witness for C8 at the all-unset filter. -/
theorem claim_C8_witness :
    Filter.matches_test Filter.empty "testAdd()" = true ∧
      Filter.matches_contract Filter.empty "SetupConsistencyCheck" = true ∧
      Filter.matches_path Filter.empty "core/SetupConsistency.t.sol" = true :=
  claim_C8_unset_filter_accepts_everything Filter.empty _ _ _
    rfl rfl rfl rfl rfl rfl rfl

/-- C3: `Filter::is_match` (the `is_source_file` operation) accepts a path
by the positive path glob when one is set; otherwise by the complement of
the negative path glob when one is set; otherwise iff the path ends with
the test-source suffix `.t.sol`.  Stated as the equality of the source
function with the definition transcribed from the spec's words. -/
theorem claim_C3_is_source_file_rule (f : Filter) (file : String) :
    f.is_match file = is_source_file_spec f file := by
  obtain ⟨p, tp, tpi, cp, cpi, pp, ppi⟩ := f
  cases pp <;> cases ppi <;>
    simp [Filter.is_match, is_source_file_spec, is_sol_test]

/-- C5: `ensure_ok` returns success exactly when `allow_failure` is true
or no test failed, and terminates the process with exit code 1 exactly
when `allow_failure` is false and at least one test failed. -/
theorem claim_C5_ensure_ok_exit_policy (o : TestOutcome) :
    (o.ensure_ok = ExitOutcome.ok ↔
      o.allow_failure = true ∨ o.failures = []) ∧
    (o.ensure_ok = ExitOutcome.exited 1 ↔
      o.allow_failure = false ∧ o.failures ≠ []) := by
  unfold TestOutcome.ensure_ok
  cases h : o.allow_failure <;>
    cases hf : o.failures <;>
      simp [h, hf]

/-- C7: in the CLI result printer, a Setup trace is displayed iff
verbosity ≥ 5 or (verbosity = 4 and the test failed); an Execution trace
is displayed iff verbosity ≥ 4 or (verbosity = 3 and the test failed);
Deployment traces are never displayed by this rule. -/
theorem claim_C7_trace_verbosity_rule (verbosity : Nat) (success : Bool) :
    (should_include TraceKind.Setup verbosity success = true ↔
      5 ≤ verbosity ∨ (verbosity = 4 ∧ success = false)) ∧
    (should_include TraceKind.Execution verbosity success = true ↔
      4 ≤ verbosity ∨ (verbosity = 3 ∧ success = false)) ∧
    should_include TraceKind.Deployment verbosity success = false := by
  refine ⟨?_, ?_, rfl⟩ <;>
    cases success <;>
      simp [should_include] <;> omega

/-- C4 counterexample: two filters that differ only in the deprecated
legacy `pattern`, while the non-legacy `test_pattern` is set, give
different `matches_test` verdicts on the same name — so `matches_test` is
not independent of the legacy pattern when another pattern is set. -/
theorem claim_C4_counterexample :
    Filter.matches_test
        ⟨some fun _ => false, some fun _ => true, none, none, none, none, none⟩
        "testA" = false ∧
      Filter.matches_test
        ⟨none, some fun _ => true, none, none, none, none, none⟩
        "testA" = true :=
  ⟨rfl, rfl⟩

/-- C4 (amended): `matches_test` is the conjunction of the legacy
pattern's verdict (when set), the positive test pattern's verdict (when
set) and the negated negative test pattern's verdict (when set); it is
independent of the contract and path patterns, but the legacy pattern
participates whenever it is set, even alongside the non-legacy test
patterns. -/
theorem claim_C4_amended_legacy_always_conjoined
    (p tp tpi cp cpi pp ppi : Option (String → Bool)) (test_name : String) :
    Filter.matches_test ⟨p, tp, tpi, cp, cpi, pp, ppi⟩ test_name =
      (optMatches p test_name && optMatches tp test_name &&
        optNotMatches tpi test_name) := by
  cases p <;> cases tp <;> cases tpi <;>
    simp [Filter.matches_test, optMatches, optNotMatches]

/-- Inserting a binding always makes its key present. -/
theorem mem_keysOf_assocInsert_self {α β : Type} [DecidableEq α]
    (m : List (α × β)) (k : α) (v : β) :
    k ∈ keysOf (assocInsert m k v) := by
  unfold assocInsert keysOf
  by_cases h : m.any (fun p => decide (p.1 = k)) = true
  · rw [if_pos h]
    obtain ⟨p, hp, hpk⟩ := List.any_eq_true.mp h
    have hpk' : p.1 = k := of_decide_eq_true hpk
    exact List.mem_map.mpr ⟨(k, v), List.mem_map.mpr ⟨p, hp, by simp [hpk']⟩, rfl⟩
  · rw [if_neg h]
    simp

/-- C10: for every `TestOutcome`, `successes()` and `failures()` partition
`tests()`: each pair yielded by `tests()` lies in exactly one of the two,
and the count of successes plus the count of failures equals the total
number of test results across all suites. -/
theorem claim_C10_successes_failures_partition (o : TestOutcome) :
    (∀ p, p ∈ o.tests →
      ((p ∈ o.successes ∧ p ∉ o.failures) ∨
        (p ∈ o.failures ∧ p ∉ o.successes))) ∧
    o.successes.length + o.failures.length =
      (o.results.map (fun q => q.2.test_results.length)).sum := by
  constructor
  · intro p hp
    by_cases h : p.2.success = true
    · exact Or.inl ⟨List.mem_filter.mpr ⟨hp, h⟩, fun hmem => by
        have := (List.mem_filter.mp hmem).2
        simp [h] at this⟩
    · refine Or.inr ⟨List.mem_filter.mpr ⟨hp, by simp [h]⟩, fun hmem => by
        have := (List.mem_filter.mp hmem).2
        simp [this] at h⟩
  · have h1 : o.tests.length = o.successes.length + o.failures.length := by
      simpa [TestOutcome.successes, TestOutcome.failures] using
        List.length_eq_length_filter_add (l := o.tests) (fun p => p.2.success)
    rw [← h1]
    simp [TestOutcome.tests, List.map_map, Function.comp_def]

/-- Witness for C10 at a concrete outcome with one passing and one
failing test. -/
theorem claim_C10_witness :
    (("testA()", passResult) ∈ outcomePassFail.tests) ∧
      ((("testA()", passResult) ∈ outcomePassFail.successes ∧
          ("testA()", passResult) ∉ outcomePassFail.failures) ∨
        (("testA()", passResult) ∈ outcomePassFail.failures ∧
          ("testA()", passResult) ∉ outcomePassFail.successes)) :=
  ⟨by decide,
    (claim_C10_successes_failures_partition outcomePassFail).1
      ("testA()", passResult) (by decide)⟩

/-- C2: for every compiled contract with non-empty linked creation
bytecode, the linker's post-link step inserts it into the
DeployableContracts map iff its ABI has a zero-argument constructor or no
constructor, and at least one ABI function's name begins with `test`; in
particular a contract whose constructor takes parameters is never
classified as a test suite. -/
theorem claim_C2_test_suite_classification
    (id : ArtifactId) (contract : LinkedContract) (dependencies : List Bytes)
    (dc : List (ArtifactId × (Abi × Bytes × List Bytes)))
    (kc : List (ArtifactId × (Abi × Bytes)))
    (b : Bytes) (hb : contract.bytecode = some b) (_hne : b ≠ [])
    (hfresh : id ∉ keysOf dc) :
    (id ∈ keysOf (post_link id contract dependencies dc kc).1 ↔
      ((∀ c, contract.abi.constructor = some c → c.inputs = []) ∧
        ∃ func ∈ contract.abi.functions,
          strStartsWith func.name "test" = true)) ∧
    (∀ c, contract.abi.constructor = some c → c.inputs ≠ [] →
      id ∉ keysOf (post_link id contract dependencies dc kc).1) := by
  obtain ⟨abi, bc, dbc⟩ := contract
  obtain rfl : bc = some b := hb
  have hred : (post_link id ⟨abi, some b, dbc⟩ dependencies dc kc).1 =
      if ((match abi.constructor with
          | some c => c.inputs.isEmpty
          | none => true) &&
          abi.functions.any (fun func => strStartsWith func.name "test")) then
        assocInsert dc id (abi, b, dependencies)
      else dc := rfl
  rw [hred]
  constructor
  · constructor
    · intro hmem
      by_cases hcond : ((match abi.constructor with
          | some c => c.inputs.isEmpty
          | none => true) &&
          abi.functions.any (fun func => strStartsWith func.name "test")) = true
      · obtain ⟨h1, h2⟩ := Bool.and_eq_true _ _ |>.mp hcond
        refine ⟨?_, List.any_eq_true.mp h2⟩
        intro c hcc
        rw [hcc] at h1
        simpa using h1
      · rw [if_neg hcond] at hmem
        exact absurd hmem hfresh
    · rintro ⟨hctor, hex⟩
      have hcond : ((match abi.constructor with
          | some c => c.inputs.isEmpty
          | none => true) &&
          abi.functions.any (fun func => strStartsWith func.name "test")) = true := by
        refine Bool.and_eq_true _ _ |>.mpr ⟨?_, List.any_eq_true.mpr hex⟩
        cases hcc : abi.constructor with
        | none => rfl
        | some c => simpa using hctor c hcc
      rw [if_pos hcond]
      exact mem_keysOf_assocInsert_self dc id _
  · intro c hcc hcne hmem
    have hcond : ((match abi.constructor with
        | some c => c.inputs.isEmpty
        | none => true) &&
        abi.functions.any (fun func => strStartsWith func.name "test")) = false := by
      rw [hcc]
      simp [hcne]
    rw [if_neg (by simp [hcond])] at hmem
    exact hfresh hmem

/-- Witness for C2: the contract `a.sol:C` with no constructor and the
single function `testA()` is classified as a test suite. -/
theorem claim_C2_witness :
    aidV1 ∈ keysOf (post_link aidV1 lcTestA [] [] []).1 :=
  (claim_C2_test_suite_classification aidV1 lcTestA [] [] [] [0] rfl
      (by decide) (by decide)).1.mpr
    ⟨by intro c hc; simp [lcTestA, abiTestA] at hc,
      ⟨⟨"testA", []⟩, by decide, by decide⟩⟩

/-- C9: `MultiContractRunner::test` consumes the fork configuration:
after a call the runner's `fork` field is `None` while every other field
is unchanged; the shared backend of the call is built from the configured
fork, and the backend of every subsequent call is built from `None`
(non-forked). -/
theorem claim_C9_test_consumes_fork (r : MultiContractRunner)
    (filter : TestFilter) (oracle : String → SuiteOracle)
    (stream_result include_fuzz_tests : Bool) :
    (r.test filter oracle stream_result include_fuzz_tests).runner.fork
        = none ∧
    (r.test filter oracle stream_result include_fuzz_tests).runner.contracts
        = r.contracts ∧
    (r.test filter oracle stream_result
        include_fuzz_tests).runner.known_contracts = r.known_contracts ∧
    (r.test filter oracle stream_result include_fuzz_tests).runner.evm_opts
        = r.evm_opts ∧
    (r.test filter oracle stream_result include_fuzz_tests).runner.evm_spec
        = r.evm_spec ∧
    (r.test filter oracle stream_result include_fuzz_tests).runner.errors
        = r.errors ∧
    (r.test filter oracle stream_result include_fuzz_tests).runner.fuzzer
        = r.fuzzer ∧
    (r.test filter oracle stream_result include_fuzz_tests).runner.sender
        = r.sender ∧
    (r.test filter oracle stream_result
        include_fuzz_tests).runner.source_paths = r.source_paths ∧
    (r.test filter oracle stream_result include_fuzz_tests).db
        = Backend.new r.fork ∧
    ∀ (filter2 : TestFilter) (oracle2 : String → SuiteOracle)
      (stream2 include2 : Bool),
      (((r.test filter oracle stream_result include_fuzz_tests).runner).test
          filter2 oracle2 stream2 include2).db = Backend.new none :=
  ⟨rfl, rfl, rfl, rfl, rfl, rfl, rfl, rfl, rfl, rfl, fun _ _ _ _ => rfl⟩

/-- Key membership is invariant under map collection. -/
theorem mem_keysOf_collectResults (a : String)
    (l : List (String × SuiteResult)) :
    a ∈ keysOf (collectResults l) ↔ a ∈ keysOf l := by
  induction l with
  | nil => simp [collectResults]
  | cons p rest ih =>
    by_cases h : rest.any (fun q => q.1 == p.1) = true
    · have hp : p.1 ∈ keysOf rest := by
        obtain ⟨q, hq, hqe⟩ := List.any_eq_true.mp h
        exact List.mem_map.mpr ⟨q, hq, eq_of_beq hqe⟩
      rw [collectResults, if_pos h]
      constructor
      · intro ha
        exact List.mem_map.mpr
          (by
            obtain ⟨q, hq, hqe⟩ := List.mem_map.mp (ih.mp ha)
            exact ⟨q, List.mem_cons_of_mem p hq, hqe⟩)
      · intro ha
        rcases List.mem_map.mp ha with ⟨q, hq, hqe⟩
        rcases List.mem_cons.mp hq with hq1 | hq2
        · refine ih.mpr ?_
          rw [← hqe, hq1]
          exact hp
        · exact ih.mpr (List.mem_map.mpr ⟨q, hq2, hqe⟩)
    · rw [collectResults, if_neg h]
      simp only [keysOf, List.map_cons, List.mem_cons]
      rw [← keysOf, ← keysOf, ih]

/-- Collecting a list whose keys are already distinct is the identity. -/
theorem collectResults_eq_self (l : List (String × SuiteResult))
    (h : (keysOf l).Nodup) : collectResults l = l := by
  induction l with
  | nil => rfl
  | cons p rest ih =>
    have hn : p.1 ∉ keysOf rest := by
      simpa [keysOf] using (List.nodup_cons.mp h).1
    have hany : rest.any (fun q => q.1 == p.1) = false := by
      rw [List.any_eq_false]
      intro q hq
      simp only [beq_iff_eq]
      intro hqe
      exact hn (List.mem_map.mpr ⟨q, hq, hqe⟩)
    rw [collectResults, hany]
    simp only [Bool.false_eq_true, if_false]
    rw [ih (List.nodup_cons.mp h).2]

/-- When no two contracts share a suite identifier, the keys of the
surviving pipeline entries are distinct. -/
theorem nonEmptySuites_keys_nodup (r : MultiContractRunner)
    (filter : TestFilter) (oracle : String → SuiteOracle)
    (include_fuzz_tests : Bool)
    (hnd : (r.contracts.map (fun p => p.1.identifier)).Nodup) :
    (keysOf (r.nonEmptySuites filter oracle include_fuzz_tests)).Nodup := by
  have h1 : List.Sublist (r.admittedContracts filter) r.contracts :=
    (List.filter_sublist _).trans (List.filter_sublist _)
  have h2 : List.Sublist (r.nonEmptySuites filter oracle include_fuzz_tests)
      (r.ranSuites filter oracle include_fuzz_tests) :=
    List.filter_sublist _
  have h3 : keysOf (r.ranSuites filter oracle include_fuzz_tests) =
      (r.admittedContracts filter).map (fun p => p.1.identifier) := by
    simp [keysOf, MultiContractRunner.ranSuites, List.map_map,
      Function.comp_def]
  have h4 : List.Sublist
      (keysOf (r.nonEmptySuites filter oracle include_fuzz_tests))
      ((r.admittedContracts filter).map (fun p => p.1.identifier)) := by
    rw [← h3]
    show List.Sublist
      ((r.nonEmptySuites filter oracle include_fuzz_tests).map (fun p => p.1))
      ((r.ranSuites filter oracle include_fuzz_tests).map (fun p => p.1))
    exact h2.map (fun p => p.1)
  exact List.Nodup.sublist
    (h4.trans (h1.map (fun p => p.1.identifier))) hnd

/-- C6 counterexample: two artifacts that differ only in compiler version
share the suite identifier `a.sol:C`; both suites pass every filter and
are sent on the stream, but the returned map holds a single entry, so the
sent pairs are not exactly the pairs present in the returned map. -/
theorem claim_C6_counterexample :
    (runnerDupIdent.test tfAll oracleOk true true).sent.length = 2 ∧
    (runnerDupIdent.test tfAll oracleOk true true).results.length = 1 ∧
    ("a.sol:C",
        ContractRunner.run_tests (oracleOk "a.sol:C") abiTestA tfAll true) ∈
      (runnerDupIdent.test tfAll oracleOk true true).sent ∧
    ("a.sol:C",
        ContractRunner.run_tests (oracleOk "a.sol:C") abiTestA tfAll true) ∉
      (runnerDupIdent.test tfAll oracleOk true true).results := by
  refine ⟨by decide, by decide, by decide, by decide⟩

/-- C6 (amended): provided no two contracts share a suite identifier, a
suite identifier appears in the map returned by `MultiContractRunner::test`
iff some contract with that identifier passed the path and contract
filters, has at least one ABI function name passing `matches_test`, and
its SuiteResult is non-empty (a setUp failure yields a synthetic
`setUp()` result, so such suites still appear); and with a stream channel
supplied, exactly the pairs present in the returned map are sent on the
channel. -/
theorem claim_C6_amended_results_membership_and_stream
    (r : MultiContractRunner) (filter : TestFilter)
    (oracle : String → SuiteOracle) (include_fuzz_tests : Bool)
    (hnd : (r.contracts.map (fun p => p.1.identifier)).Nodup) :
    (∀ sid,
      sid ∈ keysOf (r.test filter oracle true include_fuzz_tests).results ↔
      ∃ p ∈ r.contracts, p.1.identifier = sid ∧
        filter.matches_path p.1.source = true ∧
        filter.matches_contract p.1.name = true ∧
        (∃ func ∈ p.2.1.functions, filter.matches_test func.name = true) ∧
        (ContractRunner.run_tests (oracle sid) p.2.1 filter
          include_fuzz_tests).test_results ≠ []) ∧
    (r.test filter oracle true include_fuzz_tests).sent =
      (r.test filter oracle true include_fuzz_tests).results := by
  constructor
  · intro sid
    have hkeys :
        sid ∈ keysOf (r.test filter oracle true include_fuzz_tests).results ↔
        sid ∈ keysOf (r.nonEmptySuites filter oracle include_fuzz_tests) :=
      mem_keysOf_collectResults sid _
    rw [hkeys]
    show sid ∈ (r.nonEmptySuites filter oracle include_fuzz_tests).map
        (fun p => p.1) ↔ _
    constructor
    · intro h
      rcases List.mem_map.mp h with ⟨q, hq, hq1⟩
      rcases List.mem_filter.mp hq with ⟨hqran, hg⟩
      rcases List.mem_map.mp hqran with ⟨p, hpB, hmk⟩
      rcases List.mem_filter.mp hpB with ⟨hpA, hf2⟩
      rcases List.mem_filter.mp hpA with ⟨hpc, hf1⟩
      obtain ⟨hpath, hcontract⟩ := (Bool.and_eq_true _ _).mp hf1
      subst hmk
      refine ⟨p, hpc, hq1, hpath, hcontract, List.any_eq_true.mp hf2, ?_⟩
      rw [← hq1]
      intro hnil
      rw [hnil] at hg
      simp at hg
    · rintro ⟨p, hpc, hid, hpath, hcontract, hany, hne⟩
      refine List.mem_map.mpr
        ⟨(p.1.identifier,
          ContractRunner.run_tests (oracle p.1.identifier) p.2.1 filter
            include_fuzz_tests), ?_, hid⟩
      refine List.mem_filter.mpr ⟨List.mem_map.mpr ⟨p, ?_, rfl⟩, ?_⟩
      · exact List.mem_filter.mpr
          ⟨List.mem_filter.mpr
            ⟨hpc, (Bool.and_eq_true _ _).mpr ⟨hpath, hcontract⟩⟩,
            List.any_eq_true.mpr hany⟩
      · show (!(ContractRunner.run_tests (oracle p.1.identifier) p.2.1 filter
            include_fuzz_tests).test_results.isEmpty) = true
        rw [hid]
        simpa using hne
  · exact (collectResults_eq_self _
      (nonEmptySuites_keys_nodup r filter oracle include_fuzz_tests hnd)).symm

/-- Witness for C6 (amended) at a one-suite runner: the suite `a.sol:C`
appears in the map and the streamed pairs equal the map entries. -/
theorem claim_C6_witness :
    ("a.sol:C" ∈ keysOf (runnerTestA.test tfAll oracleOk true true).results) ∧
    (runnerTestA.test tfAll oracleOk true true).sent =
      (runnerTestA.test tfAll oracleOk true true).results :=
  ⟨((claim_C6_amended_results_membership_and_stream runnerTestA tfAll
      oracleOk true (by decide)).1 "a.sol:C").mpr
      ⟨(aidV1, (abiTestA, [0], [])), by decide, by decide, rfl, rfl,
        ⟨⟨"testA", []⟩, by decide, rfl⟩, by decide⟩,
    (claim_C6_amended_results_membership_and_stream runnerTestA tfAll
      oracleOk true (by decide)).2⟩

/-- A conjunct implied by the other does not change a filter. -/
theorem filter_and_eq_filter {α : Type} (l : List α) (p q : α → Bool)
    (h : ∀ x ∈ l, q x = true → p x = true) :
    l.filter (fun x => p x && q x) = l.filter q := by
  induction l with
  | nil => rfl
  | cons x xs ih =>
    have hx := h x (List.mem_cons_self x xs)
    have hxs : ∀ y ∈ xs, q y = true → p y = true :=
      fun y hy => h y (List.mem_cons_of_mem x hy)
    by_cases hq : q x = true
    · simp [List.filter_cons, hq, hx hq, ih hxs]
    · have hq' : q x = false := eq_false_of_ne_true hq
      simp [List.filter_cons, hq', ih hxs]

/-- Under a successfully deploying and setting-up oracle, with fuzz tests
included and every signature-matching function test-prefixed, the suite
holds exactly one result per signature-matching ABI function. -/
theorem run_tests_length_ok (o : SuiteOracle) (abi : Abi)
    (filter : TestFilter)
    (hdep : o.deploy_ok = true) (hsetup : o.setup_revert = none)
    (himp : ∀ func ∈ abi.functions,
      filter.matches_test func.signature = true →
      strStartsWith func.name "test" = true) :
    (ContractRunner.run_tests o abi filter true).test_results.length =
      (abi.functions.filter
        (fun func => filter.matches_test func.signature)).length := by
  have hfe : abi.functions.filter (fun func =>
      strStartsWith func.name "test" && filter.matches_test func.signature &&
        (func.inputs.isEmpty || true)) =
      abi.functions.filter (fun func => filter.matches_test func.signature) := by
    have h1 : (fun (func : AbiFunction) =>
        strStartsWith func.name "test" && filter.matches_test func.signature &&
          (func.inputs.isEmpty || true)) =
        (fun (func : AbiFunction) => strStartsWith func.name "test" &&
          filter.matches_test func.signature) := by
      funext func
      simp
    rw [h1]
    exact filter_and_eq_filter _ _ _ himp
  unfold ContractRunner.run_tests
  rw [hdep, hsetup]
  by_cases hsu : abi.functions.any
      (fun func => func.signature == "setUp()") = true
  · simp only [Bool.not_true, Bool.false_eq_true, if_false, hsu, if_true]
    simp only [List.length_map]
    rw [hfe]
  · have hsu' : abi.functions.any
        (fun func => func.signature == "setUp()") = false :=
      eq_false_of_ne_true hsu
    simp only [Bool.not_true, Bool.false_eq_true, if_false, hsu',
      List.length_map]
    rw [hfe]

/-- The sum of per-suite sizes. -/
theorem suiteSum_cons (a : String × SuiteResult)
    (t : List (String × SuiteResult)) :
    suiteSum (a :: t) = a.2.test_results.length + suiteSum t := by
  simp [suiteSum]

/-- Discarding empty suites does not change the total test count. -/
theorem suiteSum_filter_nonEmpty (l : List (String × SuiteResult)) :
    suiteSum (l.filter (fun p => !p.2.test_results.isEmpty)) = suiteSum l := by
  induction l with
  | nil => rfl
  | cons x xs ih =>
    by_cases hx : x.2.test_results.isEmpty = true
    · have hlen : x.2.test_results.length = 0 :=
        List.length_eq_zero.mpr (List.isEmpty_iff.mp hx)
      simp [List.filter_cons, hx, suiteSum_cons, ih, hlen]
    · have hx' : x.2.test_results.isEmpty = false := eq_false_of_ne_true hx
      simp [List.filter_cons, hx', suiteSum_cons, ih]

/-- Summing matched-function counts over the path/contract-filtered
contracts equals summing suite sizes over the pipeline, under an all-ok
oracle, when name-matching and signature-matching agree and every
signature-matching function is test-prefixed. -/
theorem countSum_eq_suiteSum (filter : TestFilter)
    (oracle : String → SuiteOracle)
    (l : List (ArtifactId × (Abi × Bytes × List Bytes)))
    (h_ok : ∀ s, (oracle s).deploy_ok = true ∧ (oracle s).setup_revert = none)
    (h_name : ∀ p ∈ l, ∀ func ∈ p.2.1.functions,
      filter.matches_test func.signature = true →
      strStartsWith func.name "test" = true)
    (h_agree : ∀ p ∈ l, ∀ func ∈ p.2.1.functions,
      filter.matches_test func.name = filter.matches_test func.signature) :
    ((l.filter (fun p =>
        filter.matches_path p.1.source &&
          filter.matches_contract p.1.name)).map
      (fun p => (p.2.1.functions.filter (fun func =>
        filter.matches_test func.signature)).length)).sum =
    suiteSum (((l.filter (fun p =>
        filter.matches_path p.1.source &&
          filter.matches_contract p.1.name)).filter
      (fun p => p.2.1.functions.any (fun func =>
        filter.matches_test func.name))).map (fun p =>
      (p.1.identifier,
        ContractRunner.run_tests (oracle p.1.identifier) p.2.1 filter
          true))) := by
  induction l with
  | nil => rfl
  | cons x xs ih =>
    have hxs_name : ∀ p ∈ xs, ∀ func ∈ p.2.1.functions,
        filter.matches_test func.signature = true →
        strStartsWith func.name "test" = true :=
      fun p hp => h_name p (List.mem_cons_of_mem x hp)
    have hxs_agree : ∀ p ∈ xs, ∀ func ∈ p.2.1.functions,
        filter.matches_test func.name = filter.matches_test func.signature :=
      fun p hp => h_agree p (List.mem_cons_of_mem x hp)
    have ih' := ih hxs_name hxs_agree
    by_cases hpc : (filter.matches_path x.1.source &&
        filter.matches_contract x.1.name) = true
    · by_cases hany : x.2.1.functions.any
          (fun func => filter.matches_test func.name) = true
      · have hx_len : (ContractRunner.run_tests (oracle x.1.identifier)
            x.2.1 filter true).test_results.length =
            (x.2.1.functions.filter (fun func =>
              filter.matches_test func.signature)).length :=
          run_tests_length_ok _ _ _ (h_ok x.1.identifier).1
            (h_ok x.1.identifier).2
            (h_name x (List.mem_cons_self x xs))
        simp [List.filter_cons, hpc, hany, suiteSum_cons, hx_len, ih']
      · have hany' : x.2.1.functions.any
            (fun func => filter.matches_test func.name) = false :=
          eq_false_of_ne_true hany
        have hzero : (x.2.1.functions.filter (fun func =>
            filter.matches_test func.signature)).length = 0 := by
          rw [List.length_eq_zero, List.filter_eq_nil_iff]
          intro func hf
          have ha := h_agree x (List.mem_cons_self x xs) func hf
          have hn := List.any_eq_false.mp hany' func hf
          rw [ha] at hn
          simpa using hn
        simp [List.filter_cons, hpc, hany', hzero, ih']
    · have hpc' : (filter.matches_path x.1.source &&
          filter.matches_contract x.1.name) = false :=
        eq_false_of_ne_true hpc
      simp [List.filter_cons, hpc', ih']

/-- C1 counterexample: under the all-accepting filter, with every suite
deploying and setting up successfully and fuzz tests included, the suite
declaring `setUp()` and `testA()` is counted twice by
`count_filtered_tests` (which counts every ABI function passing the
filter) but runs a single test, so the count differs from the sum of the
final suite sizes. -/
theorem claim_C1_counterexample :
    runnerSetupTestA.count_filtered_tests tfAll = 2 ∧
      suiteSum (runnerSetupTestA.test tfAll oracleOk true true).results = 1 ∧
      (oracleOk "a.sol:C").deploy_ok = true ∧
      (oracleOk "a.sol:C").setup_revert = none :=
  ⟨by decide, by decide, rfl, rfl⟩

/-- C1 (amended): provided every suite deploys and sets up successfully,
fuzz tests are included, no two contracts share a suite identifier, the
filter gives the same verdict on a function's name as on its signature,
and every function whose signature passes the filter has a name beginning
with `test`, then `count_filtered_tests(f)` equals the sum over the
SuiteResults returned by `test(f, _, true)` of the number of test results
in each suite. -/
theorem claim_C1_amended_count_equals_run_total (r : MultiContractRunner)
    (filter : TestFilter) (oracle : String → SuiteOracle)
    (stream_result : Bool)
    (h_ok : ∀ s, (oracle s).deploy_ok = true ∧ (oracle s).setup_revert = none)
    (h_name : ∀ p ∈ r.contracts, ∀ func ∈ p.2.1.functions,
      filter.matches_test func.signature = true →
      strStartsWith func.name "test" = true)
    (h_agree : ∀ p ∈ r.contracts, ∀ func ∈ p.2.1.functions,
      filter.matches_test func.name = filter.matches_test func.signature)
    (hnd : (r.contracts.map (fun p => p.1.identifier)).Nodup) :
    r.count_filtered_tests filter =
      suiteSum (r.test filter oracle stream_result true).results := by
  have hres : (r.test filter oracle stream_result true).results =
      r.nonEmptySuites filter oracle true :=
    collectResults_eq_self _
      (nonEmptySuites_keys_nodup r filter oracle true hnd)
  rw [hres]
  have hne : suiteSum (r.nonEmptySuites filter oracle true) =
      suiteSum (r.ranSuites filter oracle true) :=
    suiteSum_filter_nonEmpty _
  rw [hne]
  exact countSum_eq_suiteSum filter oracle r.contracts h_ok h_name h_agree

/-- Witness for C1 (amended) at a one-suite runner whose only ABI function
is `testA()`, under the all-accepting filter and the all-ok oracle. -/
theorem claim_C1_witness :
    runnerTestA.count_filtered_tests tfAll =
      suiteSum (runnerTestA.test tfAll oracleOk true true).results :=
  claim_C1_amended_count_equals_run_total runnerTestA tfAll oracleOk true
    (fun _ => ⟨rfl, rfl⟩) (by decide) (by decide) (by decide)

end Foundry
